import Mathlib

set_option autoImplicit false

namespace Crawler

/-!
Shallow embedding of the crawl-orchestration core of the Foursquare crawler:
the Mongo-backed result sink (`MongoDataHandler.add_sites`, `save_progress`,
`load_progress`), the orchestrator's task-list construction
(`FoursquareScraperApp.run`), the file-backed circuit breaker
(`worker_process` block handler), the fixed-window rate limiter
(`ReviewerFetcher._rate_limit_guard`), the retrying page extractor
(`FoursquareSitiesScraper.extract_sites`) and the worker execution boundary
(`BaseScraperWorker.execute`).
-/

/-! ### Result sink: the `sities` collection and `add_sites` -/

/-- An incoming venue record produced by a worker.  Its natural unique key is
`urlSitio` (the collection has a unique index on `url_sitio`); the remaining
extracted fields are abstracted into `nombre`. -/
structure Site where
  urlSitio : String
  nombre : String
deriving Repr, DecidableEq

/-- A document stored in the `sities` collection: the record fields plus the
fields `add_sites` stamps onto every site before inserting. -/
structure SiteDoc where
  urlSitio : String
  nombre : String
  municipio : String
  departamento : String
  fechaExtraccion : Nat
deriving Repr, DecidableEq

/-- The unique keys present in the collection (`url_sitio` of each document). -/
def keysOf (db : List SiteDoc) : List String :=
  db.map (fun d => d.urlSitio)

/-- The document `add_sites` builds from one incoming site: the site's fields
plus `municipio`, `departamento` and the extraction timestamp. -/
def mkSiteDoc (municipio departamento : String) (ts : Nat) (s : Site) : SiteDoc :=
  ⟨s.urlSitio, s.nombre, municipio, departamento, ts⟩

/-- The insertion loop of `add_sites`: `insert_one` succeeds iff no stored
document already carries the same `url_sitio` (the unique index); a
`DuplicateKeyError` is counted in `duplicates_count`, a success in
`new_count`. -/
def insertLoop (municipio departamento : String) (ts : Nat) :
    List Site → List SiteDoc → Nat → Nat → List SiteDoc × Nat × Nat
  | [], db, n, c => (db, n, c)
  | s :: rest, db, n, c =>
    let doc := mkSiteDoc municipio departamento ts s
    if doc.urlSitio ∈ keysOf db then
      insertLoop municipio departamento ts rest db n (c + 1)
    else
      insertLoop municipio departamento ts rest (db ++ [doc]) (n + 1) c

/-- `count_documents({'municipio': municipio})`. -/
def countByMunicipio (municipio : String) (db : List SiteDoc) : Nat :=
  (db.filter (fun d => d.municipio = municipio)).length

/-- The statistics dictionary returned by `add_sites`. -/
structure AddStats where
  newSites : Nat
  duplicatesOmitted : Nat
  totalItems : Nat
deriving Repr, DecidableEq

/-- `MongoDataHandler.add_sites`: early-returns all-zero statistics on an
empty list, otherwise inserts each site (skipping duplicate keys) and reports
the new/duplicate counts together with the collection's document count for
the municipio. -/
def addSites (municipio departamento : String) (ts : Nat) (sites : List Site)
    (db : List SiteDoc) : List SiteDoc × AddStats :=
  if sites.isEmpty then (db, ⟨0, 0, 0⟩)
  else
    let r := insertLoop municipio departamento ts sites db 0 0
    (r.1, ⟨r.2.1, r.2.2, countByMunicipio municipio r.1⟩)

theorem keysOf_append (db : List SiteDoc) (d : SiteDoc) :
    keysOf (db ++ [d]) = keysOf db ++ [d.urlSitio] := by
  simp [keysOf]

theorem insertLoop_keys_mono (municipio departamento : String) (ts : Nat)
    (sites : List Site) :
    ∀ (db : List SiteDoc) (n c : Nat) (k : String), k ∈ keysOf db →
      k ∈ keysOf (insertLoop municipio departamento ts sites db n c).1 := by
  induction sites with
  | nil => intro db n c k hk; simpa [insertLoop] using hk
  | cons s rest ih =>
    intro db n c k hk
    simp only [insertLoop]
    split
    · exact ih db n (c + 1) k hk
    · exact ih (db ++ [mkSiteDoc municipio departamento ts s]) (n + 1) c k
        (by simp [keysOf_append, hk])

theorem insertLoop_keys_cover (municipio departamento : String) (ts : Nat)
    (sites : List Site) :
    ∀ (db : List SiteDoc) (n c : Nat) (s : Site), s ∈ sites →
      s.urlSitio ∈ keysOf (insertLoop municipio departamento ts sites db n c).1 := by
  induction sites with
  | nil => intro db n c s hs; cases hs
  | cons s0 rest ih =>
    intro db n c s hs
    simp only [insertLoop]
    rcases List.mem_cons.mp hs with h | h
    · subst h
      split
      · rename_i hmem
        exact insertLoop_keys_mono municipio departamento ts rest db n (c + 1)
          s.urlSitio hmem
      · exact insertLoop_keys_mono municipio departamento ts rest
          (db ++ [mkSiteDoc municipio departamento ts s]) (n + 1) c s.urlSitio
          (by simp [keysOf_append, mkSiteDoc])
    · split
      · exact ih db n (c + 1) s h
      · exact ih (db ++ [mkSiteDoc municipio departamento ts s0]) (n + 1) c s h

theorem insertLoop_all_duplicates (municipio departamento : String) (ts : Nat)
    (sites : List Site) :
    ∀ (db : List SiteDoc) (n c : Nat),
      (∀ s ∈ sites, s.urlSitio ∈ keysOf db) →
      insertLoop municipio departamento ts sites db n c = (db, n, c + sites.length) := by
  induction sites with
  | nil => intro db n c _; simp [insertLoop]
  | cons s0 rest ih =>
    intro db n c hall
    have h0 : s0.urlSitio ∈ keysOf db := hall s0 (List.mem_cons_self s0 rest)
    simp only [insertLoop]
    rw [if_pos (by simpa [mkSiteDoc] using h0)]
    rw [ih db n (c + 1) (fun s hs => hall s (List.mem_cons_of_mem s0 hs))]
    simp [Nat.add_assoc, Nat.add_comm 1 rest.length]

/-- Claim C1: merging the same record list (pairwise-distinct canonical URLs)
a second time immediately after a first `add_sites` call leaves the persisted
record set exactly as after the first call, and the second call reports
`new_sites = 0` and `duplicates_omitted = len(R)`. -/
theorem addSites_merge_idempotent (municipio departamento : String)
    (ts1 ts2 : Nat) (sites : List Site) (db : List SiteDoc)
    (hkeys : (sites.map Site.urlSitio).Nodup) :
    (addSites municipio departamento ts2 sites
        (addSites municipio departamento ts1 sites db).1).1
      = (addSites municipio departamento ts1 sites db).1 ∧
    (addSites municipio departamento ts2 sites
        (addSites municipio departamento ts1 sites db).1).2.newSites = 0 ∧
    (addSites municipio departamento ts2 sites
        (addSites municipio departamento ts1 sites db).1).2.duplicatesOmitted
      = sites.length := by
  clear hkeys
  cases sites with
  | nil => simp [addSites]
  | cons s0 rest =>
    have hcover : ∀ s ∈ s0 :: rest,
        s.urlSitio ∈ keysOf (insertLoop municipio departamento ts1 (s0 :: rest) db 0 0).1 :=
      fun s hs => insertLoop_keys_cover municipio departamento ts1 (s0 :: rest) db 0 0 s hs
    have hsecond := insertLoop_all_duplicates municipio departamento ts2 (s0 :: rest)
      (insertLoop municipio departamento ts1 (s0 :: rest) db 0 0).1 0 0 hcover
    simp [addSites, hsecond]

/-- Concrete instantiation of `addSites_merge_idempotent` at a two-record
batch over an initially empty collection. -/
theorem addSites_merge_idempotent_w :
    (addSites "Cartagena" "Bolivar" 7 [⟨"u1", "a"⟩, ⟨"u2", "b"⟩]
        (addSites "Cartagena" "Bolivar" 3 [⟨"u1", "a"⟩, ⟨"u2", "b"⟩] []).1).1
      = (addSites "Cartagena" "Bolivar" 3 [⟨"u1", "a"⟩, ⟨"u2", "b"⟩] []).1 ∧
    (addSites "Cartagena" "Bolivar" 7 [⟨"u1", "a"⟩, ⟨"u2", "b"⟩]
        (addSites "Cartagena" "Bolivar" 3 [⟨"u1", "a"⟩, ⟨"u2", "b"⟩] []).1).2.newSites = 0 ∧
    (addSites "Cartagena" "Bolivar" 7 [⟨"u1", "a"⟩, ⟨"u2", "b"⟩]
        (addSites "Cartagena" "Bolivar" 3 [⟨"u1", "a"⟩, ⟨"u2", "b"⟩] []).1).2.duplicatesOmitted
      = 2 :=
  addSites_merge_idempotent "Cartagena" "Bolivar" 3 7 [⟨"u1", "a"⟩, ⟨"u2", "b"⟩] []
    (by decide)

/-- Claim C10: `add_sites` with an empty record list writes nothing and
returns all-zero statistics — `total_items = 0` even when the store already
holds records for the municipio — whereas in the non-empty case
`total_items` reports the store's post-insert count for that municipio. -/
theorem addSites_empty_frame (municipio departamento : String) (ts : Nat)
    (db : List SiteDoc) :
    (addSites municipio departamento ts [] db).1 = db ∧
    (addSites municipio departamento ts [] db).2 = ⟨0, 0, 0⟩ ∧
    ∀ (s : Site) (rest : List Site),
      (addSites municipio departamento ts (s :: rest) db).2.totalItems
        = countByMunicipio municipio (addSites municipio departamento ts (s :: rest) db).1 := by
  refine ⟨by simp [addSites], by simp [addSites], ?_⟩
  intro s rest
  simp [addSites]

/-! ### Checkpoint store: `save_progress` / `load_progress` -/

/-- A document of the `progress` collection (unique index on `module`). -/
structure ProgressDoc where
  module : String
  csvPath : String
  idxActual : Nat
  timestamp : Nat
deriving Repr, DecidableEq

/-- `MongoDataHandler.save_progress`: `update_one({'module': module},
{'$set': doc}, upsert=True)` — replaces the fields of the (unique) document
for the module, or appends a new document when none exists. -/
def saveProgress (module csvPath : String) (idxActual ts : Nat) :
    List ProgressDoc → List ProgressDoc
  | [] => [⟨module, csvPath, idxActual, ts⟩]
  | d :: rest =>
    if d.module = module then ⟨module, csvPath, idxActual, ts⟩ :: rest
    else d :: saveProgress module csvPath idxActual ts rest

/-- `MongoDataHandler.load_progress` (no `csv_path` filter): `find_one` on the
module key. -/
def loadProgress (module : String) : List ProgressDoc → Option ProgressDoc
  | [] => none
  | d :: rest => if d.module = module then some d else loadProgress module rest

theorem loadProgress_saveProgress (module csvPath : String) (idxActual ts : Nat)
    (db : List ProgressDoc) :
    loadProgress module (saveProgress module csvPath idxActual ts db)
      = some ⟨module, csvPath, idxActual, ts⟩ := by
  induction db with
  | nil => simp [saveProgress, loadProgress]
  | cons d rest ih =>
    by_cases h : d.module = module
    · simp [saveProgress, loadProgress, h]
    · simp [saveProgress, loadProgress, h, ih]

/-- Counterexample to claim C2: writing checkpoint index 5 and then index 3
for the same module leaves the stored index at 3, strictly below 5 — the
store does not keep the maximum over writes. -/
theorem saveProgress_regression_cx :
    (loadProgress "sities_fetcher"
        (saveProgress "sities_fetcher" "zona.csv" 3 11
          (saveProgress "sities_fetcher" "zona.csv" 5 10 []))).map ProgressDoc.idxActual
      = some 3 ∧ ¬ (3 : Nat) ≥ 5 := by
  constructor
  · rfl
  · decide

/-- Claim C2 as amended: the checkpoint store is last-write-wins — after two
`save_progress` calls for the same module the stored index is exactly the
second write's index, whatever its relation to the first. -/
theorem saveProgress_last_write_wins (module p1 p2 : String) (i j t1 t2 : Nat)
    (db : List ProgressDoc) :
    (loadProgress module
        (saveProgress module p2 j t2 (saveProgress module p1 i t1 db))).map
      ProgressDoc.idxActual = some j := by
  rw [loadProgress_saveProgress]
  rfl

/-! ### Orchestrator task-list construction: `FoursquareScraperApp.run` -/

/-- One row of the loaded URL table (`url_municipio`, `municipio`). -/
structure UrlRow where
  urlMunicipio : String
  municipio : String
deriving Repr, DecidableEq

/-- One dispatched task, as built by `run`. -/
structure SiteTask where
  url : String
  municipio : String
deriving Repr, DecidableEq

/-- The task list `FoursquareScraperApp.run` dispatches: `end_index` defaults
to `len - 1` (also when `process_all` is set) and the rows are sliced as
`urls_data.iloc[start_index:end_index + 1]`.  The progress store is passed in
to make explicit that `run` never consults it. -/
def runTaskList (urls : List UrlRow) (startIndex : Nat) (endIndex : Option Nat)
    (processAll : Bool) (progressDb : List ProgressDoc) : List SiteTask :=
  let _ := progressDb
  let e : Nat :=
    match endIndex with
    | none => urls.length - 1
    | some e0 => if processAll then urls.length - 1 else e0
  ((urls.take (e + 1)).drop startIndex).map (fun r => ⟨r.urlMunicipio, r.municipio⟩)

/-- Modelled from the spec's words, for comparison with `runTaskList`: the
claimed behaviour first loads the checkpoint for the task source and resumes
at `max(explicit_start, last_completed_index + 1)`. -/
def claimedTaskList (urls : List UrlRow) (startIndex : Nat) (endIndex : Option Nat)
    (processAll : Bool) (progressDb : List ProgressDoc) (module : String) :
    List SiteTask :=
  let e : Nat :=
    match endIndex with
    | none => urls.length - 1
    | some e0 => if processAll then urls.length - 1 else e0
  let resume : Nat :=
    match loadProgress module progressDb with
    | some d => max startIndex (d.idxActual + 1)
    | none => startIndex
  ((urls.take (e + 1)).drop resume).map (fun r => ⟨r.urlMunicipio, r.municipio⟩)

/-- An eight-row URL table for concrete evaluation. -/
def demoUrls : List UrlRow :=
  (List.range 8).map (fun i => ⟨toString i, toString i⟩)

/-- A progress store holding a checkpoint at index 5 for the orchestrator. -/
def demoProgress : List ProgressDoc := [⟨"sities_fetcher", "zona.csv", 5, 10⟩]

/-- Counterexample to claim C3: with explicit start 0 and a stored checkpoint
at index 5, `run` dispatches all eight tasks from index 0, not the two tasks
from `max(0, 5 + 1) = 6` onward that the claim requires. -/
theorem runTaskList_checkpoint_cx :
    (runTaskList demoUrls 0 none false demoProgress).length = 8 ∧
    (claimedTaskList demoUrls 0 none false demoProgress "sities_fetcher").length = 2 ∧
    runTaskList demoUrls 0 none false demoProgress
      ≠ claimedTaskList demoUrls 0 none false demoProgress "sities_fetcher" := by
  refine ⟨rfl, rfl, ?_⟩
  intro h
  have hlen := congrArg List.length h
  rw [show (runTaskList demoUrls 0 none false demoProgress).length = 8 from rfl,
    show (claimedTaskList demoUrls 0 none false demoProgress "sities_fetcher").length = 2
      from rfl] at hlen
  exact absurd hlen (by decide)

/-- Claim C3 as amended: `run` begins at the explicit start index and
dispatches exactly the rows from that index through the end of the table
(when no end index is given), and its task list is entirely independent of
the stored checkpoint. -/
theorem runTaskList_explicit_start (urls : List UrlRow) (startIndex : Nat)
    (db1 db2 : List ProgressDoc) :
    runTaskList urls startIndex none false db1
      = (urls.drop startIndex).map (fun r => ⟨r.urlMunicipio, r.municipio⟩) ∧
    ∀ (endIndex : Option Nat) (processAll : Bool),
      runTaskList urls startIndex endIndex processAll db1
        = runTaskList urls startIndex endIndex processAll db2 := by
  constructor
  · have htake : urls.take (urls.length - 1 + 1) = urls := by
      cases urls with
      | nil => rfl
      | cons u rest =>
        simp [List.take_of_length_le]
    simp only [runTaskList, htake]
  · intro endIndex processAll
    rfl

/-! ### Circuit breaker: the stop-file protocol of `worker_process` -/

/-- The two shared-state actions a worker performs in the block handler of
`worker_process`: on detecting a block it creates the stop file if absent
(`enter`), sleeps its own cooldown and then removes the stop file if present
(`clear`). -/
inductive BAction where
  | enter
  | clear
deriving Repr, DecidableEq

/-- One atomic access to the stop file, by worker `wid` at `time`. -/
structure BEvent where
  time : Nat
  wid : Nat
  act : BAction
deriving Repr, DecidableEq

/-- A worker that reached the block handler at `tEnter` with its own randomly
drawn cooldown duration. -/
structure BWorker where
  wid : Nat
  tEnter : Nat
  cooldown : Nat
deriving Repr, DecidableEq

/-- Shared state: whether the stop file exists, who created it and when, and
the log of removals that actually deleted the file. -/
structure BState where
  flag : Bool
  raiser : Option Nat
  raiseTime : Nat
  clears : List (Nat × Nat)
deriving Repr, DecidableEq

/-- One access to the stop file: `enter` creates it only when absent
(recording the raiser); `clear` removes it only when present (recording who
removed it and when). -/
def bStep (s : BState) (e : BEvent) : BState :=
  match e.act with
  | .enter =>
    if s.flag then s
    else { s with flag := true, raiser := some e.wid, raiseTime := e.time }
  | .clear =>
    if s.flag then { s with flag := false, clears := s.clears ++ [(e.time, e.wid)] }
    else s

/-- Runs an interleaved schedule of stop-file accesses from the initial
no-flag state. -/
def bRun (events : List BEvent) : BState :=
  events.foldl bStep ⟨false, none, 0, []⟩

/-- The block-handler entry access of a worker. -/
def enterEvent (w : BWorker) : BEvent := ⟨w.tEnter, w.wid, .enter⟩

/-- The stop-file removal access of a worker: the code removes the file right
after sleeping its own cooldown, so it happens at `tEnter + cooldown`. -/
def clearEvent (w : BWorker) : BEvent := ⟨w.tEnter + w.cooldown, w.wid, .clear⟩

/-- A schedule is valid for a set of block-handling workers when every event
is one of the two accesses the handler code performs for one of the workers,
and events are ordered by time. -/
def validSchedule (ws : List BWorker) (events : List BEvent) : Bool :=
  events.all (fun e => ws.any (fun w => decide (e = enterEvent w ∨ e = clearEvent w))) &&
  timeSorted events
where
  timeSorted : List BEvent → Bool
    | [] => true
    | [_] => true
    | a :: b :: rest => Nat.ble a.time b.time && timeSorted (b :: rest)

/-- Worker A: detects the block first, draws a 10-unit cooldown. -/
def workerA : BWorker := ⟨0, 0, 10⟩

/-- Worker B: also hits the block handler, draws a 3-unit cooldown. -/
def workerB : BWorker := ⟨1, 1, 3⟩

/-- An interleaving in which both workers run the block handler exactly as the
code prescribes. -/
def demoSchedule : List BEvent :=
  [⟨0, 0, .enter⟩, ⟨1, 1, .enter⟩, ⟨4, 1, .clear⟩, ⟨10, 0, .clear⟩]

/-- Counterexample to claim C4: in a valid interleaving of two block-handling
workers, the stop file raised by worker 0 (cooldown ending at time 10) is
actually removed by worker 1 at time 4 — a non-raiser clears the flag before
the raiser's cooldown has elapsed. -/
theorem blockFlag_foreign_clear_cx :
    validSchedule [workerA, workerB] demoSchedule = true ∧
    (bRun demoSchedule).raiser = some workerA.wid ∧
    (bRun demoSchedule).clears = [(4, workerB.wid)] ∧
    workerB.wid ≠ workerA.wid ∧
    4 < workerA.tEnter + workerA.cooldown := by
  refine ⟨by decide, by decide, by decide, by decide, by decide⟩

theorem bRun_clears_from_events (events : List BEvent) :
    ∀ (s : BState) (p : Nat × Nat), p ∈ (events.foldl bStep s).clears →
      p ∈ s.clears ∨ ∃ e ∈ events, e.act = .clear ∧ p = (e.time, e.wid) := by
  induction events with
  | nil => intro s p hp; exact Or.inl hp
  | cons e rest ih =>
    intro s p hp
    rcases ih (bStep s e) p hp with h | ⟨e', he', hact, hpe⟩
    · cases hact : e.act with
      | enter =>
        left
        have hcl : (bStep s e).clears = s.clears := by
          simp only [bStep, hact]
          split <;> rfl
        rwa [hcl] at h
      | clear =>
        by_cases hf : s.flag
        · simp only [bStep, hact, if_pos hf, List.mem_append, List.mem_singleton] at h
          rcases h with h | h
          · exact Or.inl h
          · exact Or.inr ⟨e, List.mem_cons_self e rest, hact, h⟩
        · exact Or.inl (by simpa [bStep, hact, hf] using h)
    · exact Or.inr ⟨e', List.mem_cons_of_mem e he', hact, hpe⟩

/-- Claim C4 as amended: every removal that actually deletes the stop file is
performed by one of the block-handling workers at exactly its own
entry time plus its own cooldown — each clearer sleeps out its own cooldown
first, but the clearer need not be the worker that raised the flag. -/
theorem blockFlag_clear_own_cooldown (ws : List BWorker) (events : List BEvent)
    (hv : validSchedule ws events = true) :
    ∀ tc widc, (tc, widc) ∈ (bRun events).clears →
      ∃ w ∈ ws, w.wid = widc ∧ tc = w.tEnter + w.cooldown := by
  intro tc widc hmem
  rcases bRun_clears_from_events events ⟨false, none, 0, []⟩ (tc, widc) hmem with
    h | ⟨e, he, hact, hpe⟩
  · simp at h
  · have hall := (Bool.and_eq_true _ _).mp hv |>.1
    rw [List.all_eq_true] at hall
    have := hall e he
    rw [List.any_eq_true] at this
    rcases this with ⟨w, hw, hwd⟩
    rcases of_decide_eq_true hwd with hee | hee
    · exfalso
      rw [hee] at hact
      simp [enterEvent] at hact
    · refine ⟨w, hw, ?_, ?_⟩
      · have : widc = e.wid := by simpa using congrArg Prod.snd hpe
        rw [this, hee]
        rfl
      · have : tc = e.time := by simpa using congrArg Prod.fst hpe
        rw [this, hee]
        rfl

/-- Concrete instantiation of `blockFlag_clear_own_cooldown` on the two-worker
interleaving: the effective removal at time 4 is by worker 1 after its own
3-unit cooldown. -/
theorem blockFlag_clear_own_cooldown_w :
    ∃ w ∈ [workerA, workerB], w.wid = 1 ∧ 4 = w.tEnter + w.cooldown :=
  blockFlag_clear_own_cooldown [workerA, workerB] demoSchedule (by decide) 4 1 (by decide)

/-! ### Fixed-window rate limiter: `ReviewerFetcher._rate_limit_guard` -/

/-- `Settings.RATE_LIMIT_PER_HOUR`. -/
def rateLimitPerHour : Nat := 45

/-- `Settings.RATE_LIMIT_WINDOW_SECONDS`. -/
def rateLimitWindowSeconds : Nat := 3600

/-- The mutable fields of `ReviewerFetcher` that the guard reads and writes. -/
structure RLState where
  windowStart : Nat
  requestsThisWindow : Nat
  blockCooldownUntil : Nat
deriving Repr, DecidableEq

/-- The `ReviewerFetcher` state right after `__init__` at clock `t0`. -/
def initRL (t0 : Nat) : RLState := ⟨t0, 0, 0⟩

/-- `_rate_limit_guard`, entered at clock `now`.  Sleeping is modelled by
advancing the clock; the returned pair is the updated state and the clock
value at which the guard returns.  First any pending block cooldown is slept
out, then the counter is incremented; a stale window is restarted, and a full
window blocks until the window's end before restarting. -/
def rateLimitGuard (s : RLState) (now : Nat) : RLState × Nat :=
  let now1 := max now s.blockCooldownUntil
  let bcu := if now < s.blockCooldownUntil then 0 else s.blockCooldownUntil
  let count := s.requestsThisWindow + 1
  let elapsed := now1 - s.windowStart
  if elapsed > rateLimitWindowSeconds then
    (⟨now1, 1, bcu⟩, now1)
  else if count ≥ rateLimitPerHour then
    let wait := rateLimitWindowSeconds - elapsed
    (⟨now1 + wait, 1, bcu⟩, now1 + wait)
  else
    (⟨s.windowStart, count, bcu⟩, now1)

/-- A sequence of guard calls at the given entry clocks. -/
def runGuards (s : RLState) : List Nat → RLState
  | [] => s
  | t :: ts => runGuards (rateLimitGuard s t).1 ts

theorem rateLimitGuard_count_lt (s : RLState) (now : Nat) :
    (rateLimitGuard s now).1.requestsThisWindow < rateLimitPerHour := by
  simp only [rateLimitGuard]
  split
  · show (1 : Nat) < rateLimitPerHour
    decide
  · split
    · show (1 : Nat) < rateLimitPerHour
      decide
    · rename_i hlt
      exact Nat.lt_of_not_le hlt

theorem runGuards_count_lt (times : List Nat) :
    ∀ (s : RLState), s.requestsThisWindow < rateLimitPerHour →
      (runGuards s times).requestsThisWindow < rateLimitPerHour := by
  induction times with
  | nil => intro s h; exact h
  | cons t ts ih =>
    intro s _
    exact ih (rateLimitGuard s t).1 (rateLimitGuard_count_lt s t)

/-- Claim C5: starting from a freshly initialized fetcher, no sequence of
guard calls ever drives the per-window request counter past the configured
budget; and a call that finds the budget reached inside a live window blocks
until the window's end and restarts the window with the counter reset. -/
theorem rateLimitGuard_budget (t0 : Nat) (times : List Nat) :
    (runGuards (initRL t0) times).requestsThisWindow < rateLimitPerHour ∧
    ∀ (s : RLState) (now : Nat),
      s.requestsThisWindow + 1 ≥ rateLimitPerHour →
      s.windowStart ≤ max now s.blockCooldownUntil →
      max now s.blockCooldownUntil - s.windowStart ≤ rateLimitWindowSeconds →
      (rateLimitGuard s now).2 = s.windowStart + rateLimitWindowSeconds ∧
      (rateLimitGuard s now).1.requestsThisWindow = 1 := by
  constructor
  · refine runGuards_count_lt times (initRL t0) ?_
    show (0 : Nat) < rateLimitPerHour
    decide
  · intro s now hfull hws helapsed
    simp only [rateLimitGuard]
    rw [if_neg (by omega), if_pos hfull]
    exact ⟨by omega, rfl⟩

/-- Concrete instantiation of `rateLimitGuard_budget`: fifty back-to-back
calls keep the counter under the budget of 45, and a guard call on a state
with 44 requests already admitted blocks until the window end (clock 3600)
and resets the counter to 1. -/
theorem rateLimitGuard_budget_w :
    (runGuards (initRL 0) (List.replicate 50 0)).requestsThisWindow < rateLimitPerHour ∧
    ((rateLimitGuard ⟨0, 44, 0⟩ 100).2 = 0 + 3600 ∧
      (rateLimitGuard ⟨0, 44, 0⟩ 100).1.requestsThisWindow = 1) :=
  ⟨(rateLimitGuard_budget 0 (List.replicate 50 0)).1,
    (rateLimitGuard_budget 0 []).2 ⟨0, 44, 0⟩ 100 (by decide) (by decide) (by decide)⟩

/-! ### Page extractor with retry: `FoursquareSitiesScraper.extract_sites` -/

/-- One element of the results container as the per-site extraction sees it:
either it yields a record or raises (the code logs a warning and skips it). -/
inductive SiteElem where
  | ok (s : Site)
  | fail
deriving Repr, DecidableEq

/-- What one navigation attempt observes on the page: a navigation timeout, an
unexpected exception, the generic-error card, the explicit no-results card, or
the results container with its elements. -/
inductive PageAttempt where
  | timeout
  | crash
  | genericError
  | noResults
  | content (elems : List SiteElem)
deriving Repr, DecidableEq

/-- The records the per-element loop collects: failing elements are skipped. -/
def extractOk : List SiteElem → List Site
  | [] => []
  | .ok s :: rest => s :: extractOk rest
  | .fail :: rest => extractOk rest

/-- The observable result of `extract_sites`: the returned status string and
site list, plus the number of attempts performed and the backoff sleeps
issued between attempts. -/
structure ExtractTrace where
  status : String
  sites : List Site
  attemptsMade : Nat
  sleeps : List Nat
deriving Repr, DecidableEq

/-- The attempt loop of `extract_sites` (`for attempt in range(1,
max_retries + 1)`), with `fuel` attempts remaining and `made` attempts
already performed.  A timeout on the last attempt returns `("timeout", [])`;
an earlier timeout sleeps `BACKOFF_FACTOR * attempt` and retries; an
unexpected exception returns `("error", [])`; the generic-error and
no-results cards return early; otherwise the container's elements are
extracted and `("success", list)` is returned — whatever the list's length.
An exhausted loop falls through to the final `return ("error", [])`. -/
def extractSitesGo (backoff : Nat) (oracle : Nat → PageAttempt) (maxRetries : Nat) :
    Nat → Nat → List Nat → ExtractTrace
  | 0, made, sleeps => ⟨"error", [], made, sleeps⟩
  | fuel + 1, made, sleeps =>
    let attempt := made + 1
    match oracle attempt with
    | .timeout =>
      if attempt = maxRetries then ⟨"timeout", [], attempt, sleeps⟩
      else extractSitesGo backoff oracle maxRetries fuel attempt
        (sleeps ++ [backoff * attempt])
    | .crash => ⟨"error", [], attempt, sleeps⟩
    | .genericError => ⟨"generic_error", [], attempt, sleeps⟩
    | .noResults => ⟨"no_results", [], attempt, sleeps⟩
    | .content elems => ⟨"success", extractOk elems, attempt, sleeps⟩

/-- `extract_sites` for a task whose successive navigation attempts observe
`oracle 1, oracle 2, …`. -/
def extractSites (backoff : Nat) (oracle : Nat → PageAttempt) (maxRetries : Nat) :
    ExtractTrace :=
  extractSitesGo backoff oracle maxRetries maxRetries 0 []

/-- `Settings.RETRIES`. -/
def settingsRetries : Nat := 3

/-- `Settings.BACKOFF_FACTOR`. -/
def settingsBackoffFactor : Nat := 10

/-- An oracle whose page always shows the results container but whose single
element fails to extract. -/
def contentNoRecords : Nat → PageAttempt := fun _ => .content [.fail]

/-- An oracle whose every navigation attempt times out. -/
def alwaysTimeout : Nat → PageAttempt := fun _ => .timeout

/-- Counterexample to claim C6: a page with a results container from which
zero records are extracted yields `("success", [])`, not the claimed
`no_results` outcome. -/
theorem extractSites_zero_records_cx :
    (extractSites settingsBackoffFactor contentNoRecords settingsRetries).status
      = "success" ∧
    (extractSites settingsBackoffFactor contentNoRecords settingsRetries).sites = [] ∧
    (extractSites settingsBackoffFactor contentNoRecords settingsRetries).status
      ≠ "no_results" := by
  refine ⟨rfl, rfl, by decide⟩

theorem extractSitesGo_no_results_source (backoff : Nat) (oracle : Nat → PageAttempt)
    (maxRetries : Nat) :
    ∀ (fuel made : Nat) (sleeps : List Nat),
      (extractSitesGo backoff oracle maxRetries fuel made sleeps).status = "no_results" →
      ∃ a, oracle a = PageAttempt.noResults := by
  intro fuel
  induction fuel with
  | zero =>
    intro made sleeps h
    exact absurd h (by simp [extractSitesGo])
  | succ f ih =>
    intro made sleeps h
    simp only [extractSitesGo] at h
    cases hor : oracle (made + 1) with
    | timeout =>
      rw [hor] at h
      by_cases hm : made + 1 = maxRetries
      · rw [if_pos hm] at h; exact absurd h (by simp)
      · rw [if_neg hm] at h; exact ih (made + 1) _ h
    | crash => rw [hor] at h; exact absurd h (by simp)
    | genericError => rw [hor] at h; exact absurd h (by simp)
    | noResults => exact ⟨made + 1, hor⟩
    | content elems => rw [hor] at h; exact absurd h (by simp)

/-- Claim C6 as amended: finding the results container yields the `success`
outcome carrying exactly the successfully extracted records — also when that
list is empty — and a `no_results` outcome arises only from the page's
explicit empty-state card. -/
theorem extractSites_container_success (backoff maxRetries : Nat)
    (oracle : Nat → PageAttempt) (elems : List SiteElem)
    (h1 : 1 ≤ maxRetries) (h : oracle 1 = PageAttempt.content elems) :
    (extractSites backoff oracle maxRetries).status = "success" ∧
    (extractSites backoff oracle maxRetries).sites = extractOk elems ∧
    ∀ (oracle2 : Nat → PageAttempt),
      (extractSites backoff oracle2 maxRetries).status = "no_results" →
      ∃ a, oracle2 a = PageAttempt.noResults := by
  refine ⟨?_, ?_, ?_⟩
  · cases maxRetries with
    | zero => omega
    | succ m => simp [extractSites, extractSitesGo, h]
  · cases maxRetries with
    | zero => omega
    | succ m => simp [extractSites, extractSitesGo, h]
  · intro oracle2 hnr
    exact extractSitesGo_no_results_source backoff oracle2 maxRetries maxRetries 0 [] hnr

/-- Concrete instantiation of `extractSites_container_success`: a container
with one good and one failing element returns success with the single
extracted record. -/
theorem extractSites_container_success_w :
    (extractSites 10 (fun _ => PageAttempt.content [.ok ⟨"u", "n"⟩, .fail]) 3).status
      = "success" ∧
    (extractSites 10 (fun _ => PageAttempt.content [.ok ⟨"u", "n"⟩, .fail]) 3).sites
      = extractOk [.ok ⟨"u", "n"⟩, .fail] ∧
    ∀ (oracle2 : Nat → PageAttempt),
      (extractSites 10 oracle2 3).status = "no_results" →
      ∃ a, oracle2 a = PageAttempt.noResults :=
  extractSites_container_success 10 3 (fun _ => PageAttempt.content [.ok ⟨"u", "n"⟩, .fail])
    [.ok ⟨"u", "n"⟩, .fail] (by decide) rfl

/-- Counterexample to claim C7: with the configured `BACKOFF_FACTOR = 10` and
`RETRIES = 3`, an always-timing-out task sleeps `[10·1, 10·2] = [10, 20]`
between attempts — not the claimed exponential `[10^1, 10^2] = [10, 100]`. -/
theorem extractSites_exponential_cx :
    (extractSites settingsBackoffFactor alwaysTimeout settingsRetries).sleeps
      = [10 * 1, 10 * 2] ∧
    (extractSites settingsBackoffFactor alwaysTimeout settingsRetries).sleeps
      ≠ [10 ^ 1, 10 ^ 2] := by
  refine ⟨rfl, by decide⟩

theorem extractSitesGo_sleeps_linear (backoff : Nat) (oracle : Nat → PageAttempt)
    (maxRetries : Nat) :
    ∀ (fuel made : Nat) (sleeps : List Nat),
      ∃ k, (extractSitesGo backoff oracle maxRetries fuel made sleeps).sleeps
        = sleeps ++ (List.range' (made + 1) k).map (fun a => backoff * a) := by
  intro fuel
  induction fuel with
  | zero =>
    intro made sleeps
    exact ⟨0, by simp [extractSitesGo]⟩
  | succ f ih =>
    intro made sleeps
    simp only [extractSitesGo]
    cases hor : oracle (made + 1) with
    | timeout =>
      by_cases hm : made + 1 = maxRetries
      · exact ⟨0, by simp [hm]⟩
      · rw [if_neg hm]
        rcases ih (made + 1) (sleeps ++ [backoff * (made + 1)]) with ⟨k, hk⟩
        refine ⟨k + 1, ?_⟩
        rw [hk, List.range'_succ]
        simp
    | crash => exact ⟨0, by simp⟩
    | genericError => exact ⟨0, by simp⟩
    | noResults => exact ⟨0, by simp⟩
    | content elems => exact ⟨0, by simp⟩

theorem extractSitesGo_all_timeout (backoff : Nat) (oracle : Nat → PageAttempt)
    (maxRetries : Nat) (hto : ∀ a, oracle a = PageAttempt.timeout) :
    ∀ (fuel made : Nat) (sleeps : List Nat), 1 ≤ fuel → fuel + made = maxRetries →
      (extractSitesGo backoff oracle maxRetries fuel made sleeps).status = "timeout" := by
  intro fuel
  induction fuel with
  | zero => intro made sleeps h; omega
  | succ f ih =>
    intro made sleeps _ hsum
    simp only [extractSitesGo, hto (made + 1)]
    cases f with
    | zero => rw [if_pos (by omega)]
    | succ f2 =>
      rw [if_neg (by omega)]
      exact ih (made + 1) _ (by omega) (by omega)

/-- Claim C7 as amended: the delay slept before retrying after a timeout at
attempt number `a` is the linear `BACKOFF_FACTOR * a` (the sleeps of any run
form the sequence `backoff·1, backoff·2, …`), and a task whose every attempt
times out exhausts the `RETRIES` budget and ends in the terminal `timeout`
outcome. -/
theorem extractSites_linear_backoff (backoff maxRetries : Nat)
    (oracle : Nat → PageAttempt) (h1 : 1 ≤ maxRetries) :
    (∃ k, (extractSites backoff oracle maxRetries).sleeps
        = (List.range' 1 k).map (fun a => backoff * a)) ∧
    ((∀ a, oracle a = PageAttempt.timeout) →
      (extractSites backoff oracle maxRetries).status = "timeout") := by
  constructor
  · rcases extractSitesGo_sleeps_linear backoff oracle maxRetries maxRetries 0 [] with ⟨k, hk⟩
    exact ⟨k, by rw [extractSites, hk]; simp⟩
  · intro hto
    exact extractSitesGo_all_timeout backoff oracle maxRetries hto maxRetries 0 [] h1
      (by omega)

/-- Concrete instantiation of `extractSites_linear_backoff` at the configured
settings with an always-timing-out oracle. -/
theorem extractSites_linear_backoff_w :
    (∃ k, (extractSites 10 alwaysTimeout 3).sleeps
        = (List.range' 1 k).map (fun a => 10 * a)) ∧
    ((∀ a, alwaysTimeout a = PageAttempt.timeout) →
      (extractSites 10 alwaysTimeout 3).status = "timeout") :=
  extractSites_linear_backoff 10 3 alwaysTimeout (by decide)

/-- Claim C8: with the configured `RETRIES = 3`, a task whose every attempt
times out performs exactly 3 attempts, ends in the terminal `timeout`
outcome, and the backoff delays slept between successive attempts are
strictly increasing. -/
theorem extractSites_retries_exhaustion :
    (extractSites settingsBackoffFactor alwaysTimeout settingsRetries).attemptsMade = 3 ∧
    (extractSites settingsBackoffFactor alwaysTimeout settingsRetries).status = "timeout" ∧
    (extractSites settingsBackoffFactor alwaysTimeout settingsRetries).sleeps = [10, 20] ∧
    List.Chain' (fun a b => a < b)
      (extractSites settingsBackoffFactor alwaysTimeout settingsRetries).sleeps := by
  refine ⟨rfl, rfl, rfl, ?_⟩
  rw [show (extractSites settingsBackoffFactor alwaysTimeout settingsRetries).sleeps
    = [10, 20] from rfl]
  exact List.chain'_cons.mpr ⟨by omega, List.chain'_singleton 20⟩

/-! ### Worker execution boundary: `BaseScraperWorker.execute` -/

/-- The two exception classes `execute` distinguishes: `PlaywrightError` and
any other `Exception`. -/
inductive PyExn where
  | playwright
  | otherExn
deriving Repr, DecidableEq

/-- The outcome of one delegated step: a value, or a raised exception. -/
inductive PyResult (α : Type) where
  | ok (a : α)
  | exn (e : PyExn)

/-- The behaviour of the collaborators one `execute` call runs into: the
shutdown flag, the browser/context/page setup, the login, the scrape call,
and the cleanup performed in the `finally` block. -/
structure WorkerEnv where
  shutdownSet : Bool
  setupBrowser : PyResult Unit
  loginRes : PyResult Bool
  scrapeRes : PyResult (String × List Site)
  cleanup : PyResult Unit

/-- The structured dictionary `execute` returns. -/
structure WorkerResult where
  status : String
  sites : List Site
deriving Repr, DecidableEq

/-- The body of the inner `try` of `execute`: set up the browser, log in
(`auth_error` short-circuits on a clean `False`), scrape, and package the
scrape's status and data.  A raised exception aborts the body. -/
def innerBody (env : WorkerEnv) : Except PyExn WorkerResult :=
  match env.setupBrowser with
  | .exn e => .error e
  | .ok _ =>
    match env.loginRes with
    | .exn e => .error e
    | .ok false => .ok ⟨"auth_error", []⟩
    | .ok true =>
      match env.scrapeRes with
      | .exn e => .error e
      | .ok (st, data) => .ok ⟨st, data⟩

/-- The `finally` block: the close calls always run; an exception raised
during cleanup replaces the body's outcome, as in Python. -/
def withCleanup (env : WorkerEnv) (r : Except PyExn WorkerResult) :
    Except PyExn WorkerResult :=
  match env.cleanup with
  | .ok _ => r
  | .exn e => .error e

/-- `BaseScraperWorker.execute`: the shutdown check, then the
`try`/`finally` body wrapped in the two `except` clauses — a
`PlaywrightError` becomes the `playwright_crash` result and any other
exception the `worker_error` result.  A propagated exception would surface
as `.error`. -/
def executeW (env : WorkerEnv) : Except PyExn WorkerResult :=
  if env.shutdownSet then .ok ⟨"shutdown", []⟩
  else
    match withCleanup env (innerBody env) with
    | .ok r => .ok r
    | .error .playwright => .ok ⟨"playwright_crash", []⟩
    | .error .otherExn => .ok ⟨"worker_error", []⟩

/-- Claim C9: whatever the collaborators do — including raising an exception
at any step — `execute` never propagates an exception past the worker
boundary: it always returns a structured result, whose status is the
scrape's own status when the scrape returned one and otherwise one of the
terminal tags `shutdown`, `auth_error`, `playwright_crash`, `worker_error`. -/
theorem executeW_no_propagation (env : WorkerEnv) :
    ∃ r : WorkerResult, executeW env = .ok r ∧
      (r.status ∈ (["shutdown", "auth_error", "playwright_crash", "worker_error"] :
          List String) ∨
        ∃ data, env.scrapeRes = .ok (r.status, data) ∧ r.sites = data) := by
  rcases env with ⟨sd, setup, login, scrape, cleanup⟩
  cases sd with
  | true => exact ⟨⟨"shutdown", []⟩, rfl, Or.inl (by simp)⟩
  | false =>
    cases cleanup with
    | exn e =>
      cases e with
      | playwright => exact ⟨⟨"playwright_crash", []⟩, rfl, Or.inl (by simp)⟩
      | otherExn => exact ⟨⟨"worker_error", []⟩, rfl, Or.inl (by simp)⟩
    | ok u =>
      cases setup with
      | exn e =>
        cases e with
        | playwright => exact ⟨⟨"playwright_crash", []⟩, rfl, Or.inl (by simp)⟩
        | otherExn => exact ⟨⟨"worker_error", []⟩, rfl, Or.inl (by simp)⟩
      | ok v =>
        cases login with
        | exn e =>
          cases e with
          | playwright => exact ⟨⟨"playwright_crash", []⟩, rfl, Or.inl (by simp)⟩
          | otherExn => exact ⟨⟨"worker_error", []⟩, rfl, Or.inl (by simp)⟩
        | ok b =>
          cases b with
          | false => exact ⟨⟨"auth_error", []⟩, rfl, Or.inl (by simp)⟩
          | true =>
            cases scrape with
            | exn e =>
              cases e with
              | playwright => exact ⟨⟨"playwright_crash", []⟩, rfl, Or.inl (by simp)⟩
              | otherExn => exact ⟨⟨"worker_error", []⟩, rfl, Or.inl (by simp)⟩
            | ok p =>
              rcases p with ⟨st, data⟩
              exact ⟨⟨st, data⟩, rfl, Or.inr ⟨data, rfl, rfl⟩⟩

end Crawler
